import Mathlib

/-!
Verification of the babeltrace CTF reader core (`src/formats/ctf/ctf.c`)
against its natural-language specification.  The C functions relevant to the
checked properties are shallowly embedded as Lean definitions: `uint64_t`
arithmetic is `Nat` reduced `% 2 ^ 64`, `uint32_t` arithmetic is `Nat`
reduced `% 2 ^ 32`, fallible paths return `Except`, and the mutable
per-stream fields become explicit state records.
-/

namespace Babeltrace

/-- The mutable clock state of `struct ctf_stream` used by
`ctf_update_timestamp`: the 64-bit reconstructed `timestamp` and the
`prev_timestamp` saved on each update. -/
structure CtfStream where
  timestamp : Nat
  prevTimestamp : Nat
deriving DecidableEq

/-- Embedding of `ctf_update_timestamp` (src/formats/ctf/ctf.c:117-142).
`len` is `integer_declaration->len`, `value` is
`integer_definition->value._unsigned`.  The C `&` with `(1ULL << len) - 1`
and with its complement keep their bitwise form (`^^^` against the all-ones
64-bit word is `~` on `uint64_t`); additions that can overflow 64 bits are
reduced `% 2 ^ 64`. -/
def ctf_update_timestamp (len : Nat) (value : Nat) (stream : CtfStream) :
    CtfStream :=
  if len = 64 then
    { stream with timestamp := value }
  else
    let oldval := stream.timestamp &&& (2 ^ len - 1)
    let newval := value
    let newval := if newval < oldval then (newval + 2 ^ len) % 2 ^ 64 else newval
    let updateval := stream.timestamp &&& ((2 ^ 64 - 1) ^^^ (2 ^ len - 1))
    let updateval := (updateval + newval) % 2 ^ 64
    { timestamp := updateval, prevTimestamp := stream.timestamp }

/-- The successive reconstructed 64-bit stream timestamps produced by feeding
a list of event-header timestamp fields to `ctf_update_timestamp`, one event
at a time (as `ctf_read_event` does at src/formats/ctf/ctf.c:272-286). -/
def streamTimestamps (len : Nat) (stream : CtfStream) : List Nat → List Nat
  | [] => []
  | f :: fs =>
    let s := ctf_update_timestamp len f stream
    s.timestamp :: streamTimestamps len s fs

/-- Clearing the low `n` bits of a 64-bit word with the complemented mask is
subtraction of the remainder. -/
lemma land_compl_mask (x n : Nat) (hn : n ≤ 64) (hx : x < 2 ^ 64) :
    x &&& ((2 ^ 64 - 1) ^^^ (2 ^ n - 1)) = x - x % 2 ^ n := by
  have hsub : x - x % 2 ^ n = 2 ^ n * (x / 2 ^ n) := by
    have := Nat.div_add_mod x (2 ^ n)
    omega
  rw [hsub]
  apply Nat.eq_of_testBit_eq
  intro i
  rw [Nat.testBit_and, Nat.testBit_xor, Nat.testBit_two_pow_sub_one,
    Nat.testBit_two_pow_sub_one, Nat.testBit_mul_pow_two]
  rcases Nat.lt_or_ge i n with hi | hi
  · have h64 : i < 64 := Nat.lt_of_lt_of_le hi hn
    simp [hi, h64, Nat.not_le_of_lt hi]
  · rcases Nat.lt_or_ge i 64 with hi64 | hi64
    · have : n + (i - n) = i := by omega
      simp [hi, hi64, Nat.not_lt_of_le hi, ← Nat.shiftRight_eq_div_pow,
        Nat.testBit_shiftRight, this]
    · have hxlt : x < 2 ^ i :=
        lt_of_lt_of_le hx (Nat.pow_le_pow_right (by norm_num) hi64)
      have : n + (i - n) = i := by omega
      simp [Nat.testBit_lt_two_pow hxlt, Nat.not_lt_of_le hi64,
        Nat.not_lt_of_le (le_trans hn hi64), ← Nat.shiftRight_eq_div_pow,
        Nat.testBit_shiftRight, this]

/-- Arithmetic characterization of `ctf_update_timestamp` below 64 bits:
the high bits are kept, the low bits are replaced by the (possibly
wrap-corrected) field value. -/
lemma ctf_update_timestamp_eq (len value : Nat) (st : CtfStream)
    (hlen : len < 64) (hts : st.timestamp < 2 ^ 64) :
    ctf_update_timestamp len value st =
      { timestamp := ((st.timestamp - st.timestamp % 2 ^ len) +
          (if value < st.timestamp % 2 ^ len then (value + 2 ^ len) % 2 ^ 64
           else value)) % 2 ^ 64,
        prevTimestamp := st.timestamp } := by
  have hne : len ≠ 64 := by omega
  rw [ctf_update_timestamp, if_neg hne]
  simp only [Nat.and_pow_two_sub_one_eq_mod,
    land_compl_mask st.timestamp len (by omega) hts]

/-- C1: updating the stream clock follows the wrap-reconstruction rule: at
declared width 64 the stream timestamp becomes exactly the field value;
below 64 the low `L` bits of the stream timestamp are replaced by the field
value, incremented by `2 ^ L` when it is smaller than the old low bits, with
`prev_timestamp` saved; and for `L = 32` starting at 0 the field sequence
`[0x00000010, 0xFFFFFFF0, 0x00000005]` reconstructs to
`[0x10, 0xFFFFFFF0, 0x100000005]`. -/
theorem C1_timestamp_wrap_reconstruction :
    (∀ value stream, ctf_update_timestamp 64 value stream =
      { stream with timestamp := value }) ∧
    (∀ len value stream, len < 64 → stream.timestamp < 2 ^ 64 →
      ctf_update_timestamp len value stream =
        { timestamp := ((stream.timestamp - stream.timestamp % 2 ^ len) +
            (if value < stream.timestamp % 2 ^ len then
              (value + 2 ^ len) % 2 ^ 64 else value)) % 2 ^ 64,
          prevTimestamp := stream.timestamp }) ∧
    streamTimestamps 32 ⟨0, 0⟩ [0x00000010, 0xFFFFFFF0, 0x00000005] =
      [0x10, 0xFFFFFFF0, 0x100000005] := by
  refine ⟨fun value stream => by simp [ctf_update_timestamp],
    fun len value stream hlen hts =>
      ctf_update_timestamp_eq len value stream hlen hts, ?_⟩
  decide

/-- Witness for C1 at a concrete wrap input. -/
theorem C1_timestamp_wrap_reconstruction_witness :
    ctf_update_timestamp 32 5 ⟨0xFFFFFFF0, 0⟩ =
      { timestamp := ((0xFFFFFFF0 - 0xFFFFFFF0 % 2 ^ 32) +
          (if 5 < 0xFFFFFFF0 % 2 ^ 32 then (5 + 2 ^ 32) % 2 ^ 64 else 5)) %
            2 ^ 64,
        prevTimestamp := 0xFFFFFFF0 } :=
  C1_timestamp_wrap_reconstruction.2.1 32 5 ⟨0xFFFFFFF0, 0⟩ (by decide)
    (by decide)

/-- Exactness of the wrap reconstruction for one step: if the true event time
is at most `2 ^ L - 1` clock ticks past the current stream timestamp, then
updating with the event's `L`-bit field recovers the true time exactly. -/
lemma ctf_update_timestamp_exact (L : Nat) (st : CtfStream) (t : Nat)
    (hL : L < 64) (hlo : st.timestamp ≤ t) (hhi : t ≤ st.timestamp + (2 ^ L - 1))
    (h64 : t < 2 ^ 64) :
    (ctf_update_timestamp L (t % 2 ^ L) st).timestamp = t := by
  have hP : 0 < 2 ^ L := Nat.two_pow_pos L
  have hPle : 2 ^ L ≤ 2 ^ 63 := Nat.pow_le_pow_right (by norm_num) (by omega)
  have h2 : (2 : Nat) ^ 64 = 2 * 2 ^ 63 := by norm_num
  obtain ⟨d, rfl⟩ : ∃ d, t = st.timestamp + d := ⟨t - st.timestamp, by omega⟩
  have hd : d < 2 ^ L := by omega
  rw [ctf_update_timestamp_eq L _ st hL (by omega)]
  have hkey : (st.timestamp + d) % 2 ^ L = (st.timestamp % 2 ^ L + d) % 2 ^ L := by
    rw [Nat.add_mod, Nat.mod_eq_of_lt hd]
  have hr : st.timestamp % 2 ^ L < 2 ^ L := Nat.mod_lt _ hP
  have hrle : st.timestamp % 2 ^ L ≤ st.timestamp := Nat.mod_le _ _
  rcases Nat.lt_or_ge (st.timestamp % 2 ^ L + d) (2 ^ L) with hcase | hcase
  · have h1 : (st.timestamp + d) % 2 ^ L = st.timestamp % 2 ^ L + d := by
      rw [hkey, Nat.mod_eq_of_lt hcase]
    simp only [h1]
    rw [if_neg (by omega)]
    have heq : st.timestamp - st.timestamp % 2 ^ L +
        (st.timestamp % 2 ^ L + d) = st.timestamp + d := by omega
    rw [heq, Nat.mod_eq_of_lt h64]
  · have h1 : (st.timestamp + d) % 2 ^ L = st.timestamp % 2 ^ L + d - 2 ^ L := by
      rw [hkey, Nat.mod_eq_sub_mod hcase, Nat.mod_eq_of_lt (by omega)]
    simp only [h1]
    rw [if_pos (by omega)]
    have hin : (st.timestamp % 2 ^ L + d - 2 ^ L + 2 ^ L) % 2 ^ 64 =
        st.timestamp % 2 ^ L + d - 2 ^ L + 2 ^ L := Nat.mod_eq_of_lt (by omega)
    have heq : st.timestamp - st.timestamp % 2 ^ L +
        (st.timestamp % 2 ^ L + d - 2 ^ L + 2 ^ L) = st.timestamp + d := by omega
    rw [hin, heq, Nat.mod_eq_of_lt h64]

/-- Reconstruction over a whole stream: if consecutive true event times are
within `2 ^ L - 1` ticks, feeding their `L`-bit low parts reproduces the
true times. -/
lemma streamTimestamps_exact (L : Nat) (hL : L < 64) :
    ∀ (times : List Nat) (st : CtfStream),
      List.Chain (fun a b => a ≤ b ∧ b ≤ a + (2 ^ L - 1)) st.timestamp times →
      (∀ t ∈ times, t < 2 ^ 64) →
      streamTimestamps L st (times.map (· % 2 ^ L)) = times
  | [], _, _, _ => rfl
  | t :: ts, st, hchain, hbound => by
    rcases hchain with _ | ⟨⟨hlo, hhi⟩, hrest⟩
    have hst' : (ctf_update_timestamp L (t % 2 ^ L) st).timestamp = t :=
      ctf_update_timestamp_exact L st t hL hlo hhi
        (hbound t (List.mem_cons_self t ts))
    simp only [List.map_cons, streamTimestamps, hst']
    refine congrArg (t :: ·) (streamTimestamps_exact L hL ts _ ?_ ?_)
    · rw [hst']
      exact hrest
    · exact fun u hu => hbound u (List.mem_cons_of_mem t hu)

/-- C2: for an `L`-bit timestamp field with `L < 64`, if no two consecutive
events are separated by more than `2 ^ L - 1` clock ticks (formally: the
true, unwrapped event times `times` form a chain starting at the current
stream timestamp with non-negative gaps of at most `2 ^ L - 1`, and the
fields are their `L`-bit low parts), the reconstructed 64-bit stream
timestamps are monotonically non-decreasing. -/
theorem C2_timestamps_monotonic (L : Nat) (st : CtfStream) (times : List Nat)
    (hL : L < 64)
    (hgap : List.Chain (fun a b => a ≤ b ∧ b ≤ a + (2 ^ L - 1))
      st.timestamp times)
    (hbound : ∀ t ∈ times, t < 2 ^ 64) :
    List.Chain' (· ≤ ·)
      (st.timestamp :: streamTimestamps L st (times.map (· % 2 ^ L))) := by
  rw [streamTimestamps_exact L hL times st hgap hbound]
  show List.Chain (· ≤ ·) st.timestamp times
  exact hgap.imp fun a b h => h.1

/-- Witness for C2 on the 32-bit wrap scenario. -/
theorem C2_timestamps_monotonic_witness :
    List.Chain' (· ≤ ·) ((0x10 : Nat) ::
      streamTimestamps 32 ⟨0x10, 0⟩
        ([0xFFFFFFF0, 0x100000005].map (· % 2 ^ 32))) :=
  C2_timestamps_monotonic 32 ⟨0x10, 0⟩ [0xFFFFFFF0, 0x100000005] (by decide)
    (List.Chain.cons (by decide)
      (List.Chain.cons (by decide) List.Chain.nil))
    (by decide)

/-- One entry of the per-stream packet index (`struct packet_index`) as
filled in by `create_stream_packet_index`: file byte offset, content and
packet sizes in bits, begin/end timestamps, the cumulative
`events_discarded` counter from the packet context, and the bit offset of
the event data past the header and context. -/
structure PacketIndexEntry where
  offset : Nat
  contentSize : Nat
  packetSize : Nat
  timestampBegin : Nat
  timestampEnd : Nat
  eventsDiscarded : Nat
  dataOffset : Nat
deriving DecidableEq, Inhabited

/-- The state mutated by `ctf_packet_seek` in read mode: the
`struct ctf_stream_pos` cursor fields together with the owning file
stream's timestamp and discard accounting.  `offset = none` is the C `EOF`
sentinel; `base = true` means a packet mapping is live. -/
structure SeekState where
  curIndex : Nat
  offset : Option Nat
  mmapOffset : Nat
  contentSize : Nat
  packetSize : Nat
  base : Bool
  timestamp : Nat
  prevTimestamp : Nat
  prevTimestampEnd : Nat
  eventsDiscarded : Nat
deriving DecidableEq

/-- The seek directive: `SEEK_CUR`, or `SEEK_SET` to a packet index. -/
inductive Whence where
  | seekCur
  | seekSet (index : Nat)
deriving DecidableEq

/-- A `[warning] Tracer discarded … events at end of stream between […] and
[…]` line printed to stderr: the discarded count and the
`[prev_timestamp, prev_timestamp_end]` interval it reports. -/
structure DiscardWarning where
  count : Nat
  intervalStart : Nat
  intervalEnd : Nat
deriving DecidableEq

/-- The `SEEK_CUR` bookkeeping of `ctf_packet_seek` in read mode
(src/formats/ctf/ctf.c:497-512): the per-boundary discarded-event delta in
`uint32_t` arithmetic (current packet's cumulative counter minus the
previous packet's, the counter itself at index 0), `prev_timestamp_end`
from the current packet's index entry, `prev_timestamp` from the stream
timestamp, then `cur_index + 1`.  `g_array_index` reads are `getD`: the C
code performs no bounds check and every reachable read is in range. -/
def seekCurAdvance (idx : List PacketIndexEntry) (st : SeekState) :
    SeekState :=
  let e := idx.getD st.curIndex default
  let diff := e.eventsDiscarded % 2 ^ 32
  let diff := if 0 < st.curIndex then
      (diff + 2 ^ 32 -
        (idx.getD (st.curIndex - 1) default).eventsDiscarded % 2 ^ 32) % 2 ^ 32
    else diff
  { st with
    prevTimestampEnd := e.timestampEnd,
    eventsDiscarded := diff,
    prevTimestamp := st.timestamp,
    curIndex := st.curIndex + 1 }

/-- The tail of the `read_next_packet` region of `ctf_packet_seek`
(src/formats/ctf/ctf.c:523-596): past the last packet, do the end-of-stream
discard bookkeeping (warn once when the pending count is non-zero and a
collection is attached, then clear the count) and set the `EOF` sentinel;
otherwise load the packet selected by `cur_index` from the index and map it
(`base := true`), an empty packet (`data_offset = content_size`) instead
requesting another `SEEK_CUR` round (`goto read_next_packet`, returned as
`Sum.inr`). -/
def seekFinish (hasCollection : Bool) (idx : List PacketIndexEntry)
    (st : SeekState) : (SeekState × List DiscardWarning) ⊕ SeekState :=
  if idx.length ≤ st.curIndex then
    let warns := if st.eventsDiscarded ≠ 0 ∧ hasCollection then
        [{ count := st.eventsDiscarded, intervalStart := st.prevTimestamp,
           intervalEnd := st.prevTimestampEnd }] else []
    let st := if st.eventsDiscarded ≠ 0 then { st with eventsDiscarded := 0 }
      else st
    Sum.inl ({ st with offset := none }, warns)
  else
    let e := idx.getD st.curIndex default
    let st := { st with
      mmapOffset := e.offset,
      timestamp := e.timestampBegin,
      contentSize := e.contentSize,
      packetSize := e.packetSize }
    if e.dataOffset < e.contentSize then
      Sum.inl ({ st with offset := some 0, base := true }, [])
    else if e.dataOffset = e.contentSize then
      Sum.inr { st with offset := some e.dataOffset }
    else
      Sum.inl ({ st with offset := none }, [])

/-- The labeled `read_next_packet` loop of `ctf_packet_seek`
(src/formats/ctf/ctf.c:488-596) in read mode, as fuelled recursion (each
`goto` round advances `cur_index`, so `idx.length + 1` rounds always
suffice).  A `SEEK_CUR` at the `EOF` sentinel returns immediately. -/
def seekReadLoop (hasCollection : Bool) (idx : List PacketIndexEntry) :
    Nat → SeekState → Whence → SeekState × List DiscardWarning
  | 0, st, _ => (st, [])
  | fuel + 1, st, whence =>
    let afterSwitch : Option SeekState :=
      match whence with
      | .seekSet index =>
        some { st with curIndex := index, prevTimestamp := 0,
                       prevTimestampEnd := 0 }
      | .seekCur =>
        match st.offset with
        | none => none
        | some _ => some (seekCurAdvance idx st)
    match afterSwitch with
    | none => (st, [])
    | some st1 =>
      match seekFinish hasCollection idx st1 with
      | Sum.inl r => r
      | Sum.inr st2 => seekReadLoop hasCollection idx fuel st2 .seekCur

/-- `ctf_packet_seek` (src/formats/ctf/ctf.c:440-596) in read mode
(`prot = PROT_READ`, so no content-size write-back): the entry prologue
unmaps any live mapping, then the `read_next_packet` region runs.  Returns
the new state and the discard warnings printed to stderr. -/
def ctf_packet_seek (hasCollection : Bool) (idx : List PacketIndexEntry)
    (st : SeekState) (whence : Whence) : SeekState × List DiscardWarning :=
  seekReadLoop hasCollection idx (idx.length + 1) { st with base := false }
    whence

/-- C10: in read mode, `SEEK_CUR` with the cursor offset already at the
`EOF` sentinel returns immediately: the only code that runs before the
check is the entry prologue clearing the (at `EOF`, already unmapped)
mapping, so with no live mapping the whole state — `cur_index`,
`mmap_offset`, `packet_size`, `content_size`, the timestamp fields, the
events-discarded counter and the mapping — is returned unchanged and no
warning is printed. -/
theorem C10_seek_cur_at_eof (hasCollection : Bool)
    (idx : List PacketIndexEntry) (st : SeekState)
    (heof : st.offset = none) :
    ctf_packet_seek hasCollection idx st .seekCur =
      ({ st with base := false }, []) ∧
    (st.base = false →
      ctf_packet_seek hasCollection idx st .seekCur = (st, [])) := by
  have h1 : ctf_packet_seek hasCollection idx st .seekCur =
      ({ st with base := false }, []) := by
    simp [ctf_packet_seek, seekReadLoop, heof]
  refine ⟨h1, fun hb => ?_⟩
  rw [h1]
  cases st
  simp_all

/-- Witness for C10 at a concrete `EOF` state. -/
theorem C10_seek_cur_at_eof_witness :
    ctf_packet_seek true
        [{ offset := 0, contentSize := 4096, packetSize := 4096,
           timestampBegin := 100, timestampEnd := 199, eventsDiscarded := 0,
           dataOffset := 64 }]
        { curIndex := 1, offset := none, mmapOffset := 0, contentSize := 4096,
          packetSize := 4096, base := false, timestamp := 150,
          prevTimestamp := 100, prevTimestampEnd := 199,
          eventsDiscarded := 0 } .seekCur =
      ({ curIndex := 1, offset := none, mmapOffset := 0, contentSize := 4096,
         packetSize := 4096, base := false, timestamp := 150,
         prevTimestamp := 100, prevTimestampEnd := 199,
         eventsDiscarded := 0 }, []) :=
  (C10_seek_cur_at_eof true _ _ rfl).2 rfl

/-- The two-packet index of the discarded-events scenario: packet 0 declares
cumulative `events_discarded = 0`, packet 1 declares 3; both packets are
non-empty. -/
def c4Index : List PacketIndexEntry :=
  [⟨0, 4096, 4096, 100, 199, 0, 64⟩, ⟨512, 4096, 4096, 200, 299, 3, 64⟩]

/-- The reader state while inside packet 0 of `c4Index` (as left by
`SEEK_SET 0`). -/
def c4State0 : SeekState := ⟨0, some 0, 0, 4096, 4096, true, 100, 0, 0, 0⟩

/-- The reader state while inside packet 1 of `c4Index` (as left by the
`SEEK_CUR` that crossed the 0→1 boundary). -/
def c4State1 : SeekState := ⟨1, some 0, 512, 4096, 4096, true, 200, 100, 199, 0⟩

/-- Refutes C4's scenario figure: with cumulative counters 0 and 3, the
`SEEK_CUR` that crosses from packet 0 to packet 1 computes the
events-discarded delta from packet 0's entry (the packet being left), so it
reports 0, not 3. -/
theorem C4_counterexample_boundary_delta :
    (ctf_packet_seek true c4Index c4State0 .seekCur).1.eventsDiscarded = 0 ∧
    ¬ (ctf_packet_seek true c4Index c4State0 .seekCur).1.eventsDiscarded = 3
    := by decide

/-- C4 (amended): in read mode, `SEEK_CUR` computes the events-discarded
delta from the cumulative counter of the packet being left (`cur_index`)
minus its predecessor's (the counter itself when leaving packet 0), records
`prev_timestamp` from the stream timestamp and `prev_timestamp_end` from
the left packet's `timestamp_end`, and increments the packet index (general
conjunct, stated for a non-final, non-empty destination packet).  For the
two-packet file with counters 0 and 3, the delta reported on crossing
0→1 is 0; the delta 3 is computed by the `SEEK_CUR` that leaves packet 1,
which reaches end of file and prints exactly one stderr warning reporting
the 3 discarded events and the `[prev_timestamp, prev_timestamp_end]`
interval. -/
theorem C4_seek_cur_accounting :
    (∀ (hasCollection : Bool) (idx : List PacketIndexEntry) (st : SeekState)
      (o : Nat), st.offset = some o → st.curIndex + 1 < idx.length →
      (idx.getD (st.curIndex + 1) default).dataOffset <
        (idx.getD (st.curIndex + 1) default).contentSize →
      ctf_packet_seek hasCollection idx st .seekCur =
        ({ curIndex := st.curIndex + 1,
           offset := some 0,
           mmapOffset := (idx.getD (st.curIndex + 1) default).offset,
           contentSize := (idx.getD (st.curIndex + 1) default).contentSize,
           packetSize := (idx.getD (st.curIndex + 1) default).packetSize,
           base := true,
           timestamp := (idx.getD (st.curIndex + 1) default).timestampBegin,
           prevTimestamp := st.timestamp,
           prevTimestampEnd := (idx.getD st.curIndex default).timestampEnd,
           eventsDiscarded :=
             if 0 < st.curIndex then
               ((idx.getD st.curIndex default).eventsDiscarded % 2 ^ 32 +
                 2 ^ 32 -
                 (idx.getD (st.curIndex - 1) default).eventsDiscarded %
                   2 ^ 32) % 2 ^ 32
             else
               (idx.getD st.curIndex default).eventsDiscarded % 2 ^ 32 },
          [])) ∧
    ctf_packet_seek true c4Index c4State0 .seekCur = (c4State1, []) ∧
    ctf_packet_seek true c4Index c4State1 .seekCur =
      (⟨2, none, 512, 4096, 4096, false, 200, 200, 299, 0⟩,
        [⟨3, 200, 299⟩]) ∧
    (ctf_packet_seek true c4Index c4State1 .seekCur).2.length = 1 := by
  refine ⟨?_, by decide, by decide, by decide⟩
  intro hasCollection idx st o hoff hlt hne
  have hnotend : ¬ idx.length ≤ st.curIndex + 1 := by omega
  simp only [ctf_packet_seek, seekReadLoop, seekCurAdvance, seekFinish, hoff,
    hnotend, if_false, ite_false, hne, if_true, ite_true]

/-- Witness for C4's general conjunct at a concrete input. -/
theorem C4_seek_cur_accounting_witness :
    ctf_packet_seek true c4Index c4State0 .seekCur =
      ({ curIndex := 0 + 1,
         offset := some 0,
         mmapOffset := (c4Index.getD (0 + 1) default).offset,
         contentSize := (c4Index.getD (0 + 1) default).contentSize,
         packetSize := (c4Index.getD (0 + 1) default).packetSize,
         base := true,
         timestamp := (c4Index.getD (0 + 1) default).timestampBegin,
         prevTimestamp := c4State0.timestamp,
         prevTimestampEnd := (c4Index.getD 0 default).timestampEnd,
         eventsDiscarded :=
           if 0 < (0 : Nat) then
             ((c4Index.getD 0 default).eventsDiscarded % 2 ^ 32 + 2 ^ 32 -
               (c4Index.getD (0 - 1) default).eventsDiscarded % 2 ^ 32) %
               2 ^ 32
           else (c4Index.getD 0 default).eventsDiscarded % 2 ^ 32 }, []) :=
  C4_seek_cur_accounting.1 true c4Index c4State0 0 rfl (by decide) (by decide)

/-- The error outcomes of the CTF reader core.  Each constructor names one
of the distinct `return -EINVAL` (or `-EIO`) sites of the C code; the
spec's error-kind names are used for the sites they describe. -/
inductive CtfErr where
  | badMagic
  | uuidMismatch
  | streamIdChange
  | unknownStream
  | badPacketSize
  | unsupportedFraming
  | fileTooSmall
deriving DecidableEq

deriving instance DecidableEq for Except

/-- The 32-bit constant `CTF_MAGIC` required in stream packet headers. -/
def ctfMagic : Nat := 0xC1FC1FC1

/-- The fields `create_stream_packet_index` extracts by name from a decoded
`trace.packet.header` (src/formats/ctf/ctf.c:1053-1108); `none` when the
declaration lacks the field. -/
structure PacketHeaderView where
  magic : Option Nat
  uuid : Option (List Nat)
  streamId : Option Nat
deriving DecidableEq

/-- The fields `create_stream_packet_index` extracts by name from a decoded
`stream.packet.context` (src/formats/ctf/ctf.c:1132-1186); `none` when the
declaration lacks the field. -/
structure PacketContextView where
  contentSize : Option Nat
  packetSize : Option Nat
  timestampBegin : Option Nat
  timestampEnd : Option Nat
  eventsDiscarded : Option Nat
deriving DecidableEq

/-- What decoding one stream packet's header and context yields: the two
optional decoded structures (absent when the corresponding declaration is
missing) and the cursor bit offset `pos->offset` after both decodes, which
becomes the entry's `data_offset`. -/
structure PacketView where
  header : Option PacketHeaderView
  context : Option PacketContextView
  headerContextBits : Nat
deriving DecidableEq

/-- The `uuid` and `stream_id` part of the `trace.packet.header` checks of
`create_stream_packet_index` (src/formats/ctf/ctf.c:1074-1107): a declared
`uuid` must equal the trace UUID byte for byte, and `stream_id` is read
(0 when absent, matching the loop-local initialization). -/
def indexPacketHeaderUuid (tdUuid : List Nat) (h : PacketHeaderView) :
    Except CtfErr Nat :=
  match h.uuid with
  | some u =>
    if u ≠ tdUuid then Except.error CtfErr.uuidMismatch
    else Except.ok (h.streamId.getD 0)
  | none => Except.ok (h.streamId.getD 0)

/-- The `trace.packet.header` checks of `create_stream_packet_index`
(src/formats/ctf/ctf.c:1053-1108): a declared `magic` must equal
`CTF_MAGIC`, then the UUID and stream-id checks run. -/
def indexPacketHeader (tdUuid : List Nat) (h : PacketHeaderView) :
    Except CtfErr Nat :=
  match h.magic with
  | some m =>
    if m ≠ ctfMagic then Except.error CtfErr.badMagic
    else indexPacketHeaderUuid tdUuid h
  | none => indexPacketHeaderUuid tdUuid h

/-- The content/packet size, timestamp and discard-count extraction of
`create_stream_packet_index` (src/formats/ctf/ctf.c:1132-1192): missing
`content_size` defaults to the file size in bits; missing `packet_size`
defaults to the content size when non-zero (C `? :`), else the file size in
bits; timestamps and the discard counter default to the zero
initialization of `packet_index`. -/
def contextValues (fileSize : Nat) (ctx : Option PacketContextView) :
    Nat × Nat × Nat × Nat × Nat :=
  match ctx with
  | some c =>
    let contentSize := c.contentSize.getD (fileSize * 8)
    let packetSize := match c.packetSize with
      | some p => p
      | none => if contentSize ≠ 0 then contentSize else fileSize * 8
    (contentSize, packetSize, c.timestampBegin.getD 0, c.timestampEnd.getD 0,
      c.eventsDiscarded.getD 0)
  | none =>
    let contentSize := fileSize * 8
    let packetSize := if contentSize ≠ 0 then contentSize else fileSize * 8
    (contentSize, packetSize, 0, 0, 0)

/-- The part of one packet-indexing iteration that follows the header
checks (src/formats/ctf/ctf.c:1110-1213): stream-id continuity,
first-packet stream resolution (`streams` lists which stream classes the
metadata declared), size extraction and validation, then the appended
index entry (paired with the stream id recorded on the file stream). -/
def indexPacketChecks (streams : List Bool) (fileSize : Nat) (first : Bool)
    (recordedStreamId mmapOffset : Nat) (pkt : PacketView)
    (streamId : Nat) : Except CtfErr (PacketIndexEntry × Nat) :=
  if ¬ first ∧ recordedStreamId ≠ streamId then
    Except.error CtfErr.streamIdChange
  else if first ∧ streams.length ≤ streamId then
    Except.error CtfErr.unknownStream
  else if first ∧ streams.getD streamId false = false then
    Except.error CtfErr.unknownStream
  else
    match contextValues fileSize pkt.context with
    | (contentSize, packetSize, tsBegin, tsEnd, discarded) =>
      if packetSize < contentSize then Except.error CtfErr.badPacketSize
      else if (fileSize - mmapOffset) * 8 < packetSize then
        Except.error CtfErr.badPacketSize
      else
        Except.ok ({ offset := mmapOffset, contentSize := contentSize,
                     packetSize := packetSize, timestampBegin := tsBegin,
                     timestampEnd := tsEnd, eventsDiscarded := discarded,
                     dataOffset := pkt.headerContextBits }, streamId)

/-- One iteration of the packet-indexing loop
(src/formats/ctf/ctf.c:1025-1213): the `trace.packet.header` checks (the
stream id defaults to 0 with no header declaration), then the remaining
checks and the entry construction. -/
def indexOnePacket (tdUuid : List Nat) (streams : List Bool) (fileSize : Nat)
    (first : Bool) (recordedStreamId : Nat) (mmapOffset : Nat)
    (pkt : PacketView) : Except CtfErr (PacketIndexEntry × Nat) :=
  match (match pkt.header with
         | none => Except.ok 0
         | some h => indexPacketHeader tdUuid h) with
  | Except.error e => Except.error e
  | Except.ok streamId =>
    indexPacketChecks streams fileSize first recordedStreamId mmapOffset pkt
      streamId

/-- The `mmap_offset` walk of `create_stream_packet_index`
(src/formats/ctf/ctf.c:1025-1214): one `PacketView` per iteration, stopping
once `mmap_offset` reaches the file size, each entry advancing the offset
by `packet_size / 8` (`CHAR_BIT = 8`). -/
def indexLoop (tdUuid : List Nat) (streams : List Bool) (fileSize : Nat) :
    List PacketView → Nat → Bool → Nat →
      Except CtfErr (List PacketIndexEntry)
  | [], _, _, _ => Except.ok []
  | pkt :: rest, mmapOffset, first, recordedStreamId =>
    if fileSize ≤ mmapOffset then Except.ok []
    else
      match indexOnePacket tdUuid streams fileSize first recordedStreamId
          mmapOffset pkt with
      | Except.error e => Except.error e
      | Except.ok (entry, streamId) =>
        match indexLoop tdUuid streams fileSize rest
            (mmapOffset + entry.packetSize / 8) false streamId with
        | Except.error e => Except.error e
        | Except.ok rest' => Except.ok (entry :: rest')

/-- `create_stream_packet_index` (src/formats/ctf/ctf.c:1004-1220): files
smaller than one page (`MAX_PACKET_HEADER_LEN / CHAR_BIT`, i.e.
`getpagesize()` bytes) are refused with `-EINVAL` before any packet is
examined; otherwise the file is walked packet by packet from offset 0. -/
def create_stream_packet_index (pageSize : Nat) (tdUuid : List Nat)
    (streams : List Bool) (fileSize : Nat) (pkts : List PacketView) :
    Except CtfErr (List PacketIndexEntry) :=
  if fileSize < pageSize then Except.error CtfErr.fileTooSmall
  else indexLoop tdUuid streams fileSize pkts 0 true 0

/-- Every index entry the post-header checks produce satisfies the two
size inequalities they validate. -/
lemma indexPacketChecks_ok_sizes (streams : List Bool) (fileSize : Nat)
    (first : Bool) (recordedStreamId mmapOffset : Nat) (pkt : PacketView)
    (streamId : Nat) (entry : PacketIndexEntry) (sid : Nat)
    (h : indexPacketChecks streams fileSize first recordedStreamId
      mmapOffset pkt streamId = Except.ok (entry, sid)) :
    entry.contentSize ≤ entry.packetSize ∧
    entry.packetSize ≤ (fileSize - entry.offset) * 8 := by
  unfold indexPacketChecks at h
  split at h
  · exact absurd h (by simp)
  split at h
  · exact absurd h (by simp)
  split at h
  · exact absurd h (by simp)
  split at h
  split at h
  · exact absurd h (by simp)
  split at h
  · exact absurd h (by simp)
  rw [Except.ok.injEq, Prod.mk.injEq] at h
  obtain ⟨he, -⟩ := h
  subst he
  constructor <;> simp <;> omega

/-- Refutes C3 as stated: the indexer never validates
`data_offset ≤ content_size`.  A packet whose context declares
`content_size = 0` and `packet_size =` the whole file, decoded with 64 bits
of header and context, is appended as an index entry whose `data_offset`
(64) exceeds its `content_size` (0), with no `BadPacketSize` failure. -/
theorem C3_counterexample_data_offset :
    indexOnePacket [] [true] 4096 true 0 0
        ⟨none, some ⟨some 0, some 32768, none, none, none⟩, 64⟩ =
      Except.ok (⟨0, 0, 32768, 0, 0, 0, 64⟩, 0) ∧
    ¬ (64 : Nat) ≤ 0 := by decide

/-- C3 (amended): every appended packet index entry satisfies the two
inequalities the indexer checks, `content_size ≤ packet_size` and
`packet_size ≤ (file_size − file_byte_offset) · 8` (and trivially
`0 ≤ data_offset`), and any packet whose context values violate either
checked inequality makes indexing fail with `BadPacketSize` instead of
recording an entry; `data_offset ≤ content_size` is not validated and can
fail on an appended entry. -/
theorem C3_index_entry_size_invariants :
    (∀ (tdUuid : List Nat) (streams : List Bool)
      (fileSize : Nat) (first : Bool) (recordedStreamId mmapOffset : Nat)
      (pkt : PacketView) (entry : PacketIndexEntry) (sid : Nat),
      indexOnePacket tdUuid streams fileSize first recordedStreamId
          mmapOffset pkt = Except.ok (entry, sid) →
      entry.contentSize ≤ entry.packetSize ∧
      entry.packetSize ≤ (fileSize - entry.offset) * 8) ∧
    (∀ (tdUuid : List Nat) (streams : List Bool)
      (fileSize mmapOffset : Nat) (pkt : PacketView)
      (c p tb te ed : Nat),
      pkt.header = none →
      contextValues fileSize pkt.context = (c, p, tb, te, ed) →
      (p < c ∨ (fileSize - mmapOffset) * 8 < p) →
      indexOnePacket tdUuid streams fileSize false 0 mmapOffset pkt =
        Except.error CtfErr.badPacketSize) := by
  constructor
  · intro tdUuid streams fileSize first recordedStreamId mmapOffset pkt
      entry sid h
    unfold indexOnePacket at h
    split at h
    · exact absurd h (by simp)
    · exact indexPacketChecks_ok_sizes _ _ _ _ _ _ _ _ _ h
  · intro tdUuid streams fileSize mmapOffset pkt c p tb te ed hheader hcv
      hviol
    unfold indexOnePacket
    rw [hheader]
    show indexPacketChecks streams fileSize false 0 mmapOffset pkt 0 =
      Except.error CtfErr.badPacketSize
    unfold indexPacketChecks
    rw [if_neg (by simp), if_neg (by simp), if_neg (by simp), hcv]
    show (if p < c then Except.error CtfErr.badPacketSize
      else if (fileSize - mmapOffset) * 8 < p then
        Except.error CtfErr.badPacketSize
      else Except.ok
        (({ offset := mmapOffset, contentSize := c, packetSize := p,
            timestampBegin := tb, timestampEnd := te, eventsDiscarded := ed,
            dataOffset := pkt.headerContextBits } : PacketIndexEntry),
          (0 : Nat))) =
      Except.error CtfErr.badPacketSize
    rcases Nat.lt_or_ge p c with h1 | h1
    · rw [if_pos h1]
    · rw [if_neg (by omega)]
      rcases hviol with h2 | h2
      · exact absurd h2 (by omega)
      · rw [if_pos h2]

/-- Witness for C3's amended invariants at a concrete appended entry. -/
theorem C3_index_entry_size_invariants_witness :
    (⟨0, 0, 32768, 0, 0, 0, 64⟩ : PacketIndexEntry).contentSize ≤
        (⟨0, 0, 32768, 0, 0, 0, 64⟩ : PacketIndexEntry).packetSize ∧
      (⟨0, 0, 32768, 0, 0, 0, 64⟩ : PacketIndexEntry).packetSize ≤
        (4096 - (⟨0, 0, 32768, 0, 0, 0, 64⟩ : PacketIndexEntry).offset) * 8 :=
  C3_index_entry_size_invariants.1 [] [true] 4096 true 0 0
    ⟨none, some ⟨some 0, some 32768, none, none, none⟩, 64⟩ _ 0 (by decide)

/-- C9: a stream file smaller than one page
(`MAX_PACKET_HEADER_LEN / CHAR_BIT` bytes) makes `create_stream_packet_index`
fail with `-EINVAL` before any packet is examined, whatever the file's
packets contain. -/
theorem C9_small_file_rejected (pageSize : Nat) (tdUuid : List Nat)
    (streams : List Bool) (fileSize : Nat) (pkts : List PacketView)
    (hsmall : fileSize < pageSize) :
    create_stream_packet_index pageSize tdUuid streams fileSize pkts =
      Except.error CtfErr.fileTooSmall := by
  unfold create_stream_packet_index
  rw [if_pos hsmall]

/-- Witness for C9: a 4095-byte file holding one well-formed packet (valid
magic, matching sizes) is still refused on a 4096-byte-page system. -/
theorem C9_small_file_rejected_witness :
    create_stream_packet_index 4096 [] [true] 4095
        [⟨some ⟨some 0xC1FC1FC1, none, some 0⟩,
          some ⟨some 32760, some 32760, some 0, some 1, some 0⟩, 64⟩] =
      Except.error CtfErr.fileTooSmall :=
  C9_small_file_rejected 4096 [] [true] 4095
    [⟨some ⟨some 0xC1FC1FC1, none, some 0⟩,
      some ⟨some 32760, some 32760, some 0, some 1, some 0⟩, 64⟩]
    (by decide)

/-- A byte order, little- or big-endian (`BYTE_ORDER` values). -/
inductive ByteOrder where
  | le
  | be
deriving DecidableEq

/-- The opposite byte order (`(BYTE_ORDER == BIG_ENDIAN) ? LITTLE_ENDIAN :
BIG_ENDIAN`). -/
def ByteOrder.swap : ByteOrder → ByteOrder
  | .le => .be
  | .be => .le

/-- `GUINT32_SWAP_LE_BE`: reverse the four bytes of a 32-bit value. -/
def bswap32 (v : Nat) : Nat :=
  (v % 256) * 2 ^ 24 + (v / 2 ^ 8 % 256) * 2 ^ 16 +
    (v / 2 ^ 16 % 256) * 2 ^ 8 + v / 2 ^ 24 % 256

/-- The `TSDL_MAGIC` constant opening a packet-framed metadata file. -/
def tsdlMagic : Nat := 0x75D11D57

/-- `packet_metadata` (src/formats/ctf/ctf.c:598-622): inspect the first 4
bytes of the metadata file read as a host-order `uint32_t` (`none` when the
file is shorter than 4 bytes).  Returns 1 (packet framing) and sets the
trace byte order — host order on `TSDL_MAGIC`, its opposite on the
byte-swapped magic — or returns 0 leaving the trace byte order unset. -/
def packet_metadata (hostOrder : ByteOrder) (firstWord : Option Nat) :
    Nat × Option ByteOrder :=
  match firstWord with
  | none => (0, none)
  | some magic =>
    if magic = tsdlMagic then (1, some hostOrder)
    else if magic = bswap32 tsdlMagic then (1, some hostOrder.swap)
    else (0, none)

/-- The framing decision of `ctf_open_trace_metadata_read`
(src/formats/ctf/ctf.c:819-838): when `packet_metadata` returns non-zero
the trace is packet-framed with the byte order it set; otherwise the trace
falls through to text mode with host byte order.  Returns
`(packetFramed?, trace byte order)`. -/
def metadataFraming (hostOrder : ByteOrder) (firstWord : Option Nat) :
    Bool × ByteOrder :=
  match packet_metadata hostOrder firstWord with
  | (ret, byteOrder) =>
    if ret ≠ 0 then (true, byteOrder.getD hostOrder) else (false, hostOrder)

/-- `struct metadata_packet_header` (the fixed binary metadata framing
header). -/
structure MetadataPacketHeader where
  magic : Nat
  uuid : List Nat
  checksum : Nat
  contentSize : Nat
  packetSize : Nat
  compressionScheme : Nat
  encryptionScheme : Nat
  checksumScheme : Nat
  major : Nat
  minor : Nat
deriving DecidableEq

/-- Byte-swap of the four 32-bit numeric fields of a metadata packet
header (`magic`, `checksum`, `content_size`, `packet_size`). -/
def swapHeaderFields (h : MetadataPacketHeader) : MetadataPacketHeader :=
  { h with magic := bswap32 h.magic, checksum := bswap32 h.checksum,
           contentSize := bswap32 h.contentSize,
           packetSize := bswap32 h.packetSize }

/-- The conditional byte swap of `ctf_open_trace_metadata_packet_read`
(src/formats/ctf/ctf.c:663-668): when the trace byte order differs from
the host's, the four 32-bit numeric fields are byte-swapped before use. -/
def readHeaderFields (hostOrder byteOrder : ByteOrder)
    (h : MetadataPacketHeader) : MetadataPacketHeader :=
  if byteOrder ≠ hostOrder then swapHeaderFields h else h

/-- A warning line the metadata packet reader prints to stderr while
continuing. -/
inductive MetaWarning where
  | checksumNotVerified
  | unsupportedVersion (major minor : Nat)
deriving DecidableEq

/-- `check_version` (src/formats/ctf/ctf.c:627-648): only CTF 1.8 is
silently accepted; anything else warns but is tried anyway (the function
always returns success). -/
def check_version (major minor : Nat) : List MetaWarning :=
  if major = 1 ∧ minor = 8 then [] else
    [MetaWarning.unsupportedVersion major minor]

/-- The header validation of `ctf_open_trace_metadata_packet_read`
(src/formats/ctf/ctf.c:651-694): conditional byte swap, checksum warning,
refusal of non-zero compression/encryption/checksum schemes, version
warning, then UUID adoption (first packet) or exact-match validation.
`tdUuid` is the trace UUID state (`none` before the first packet); on
success the updated state is returned, and the payload copy follows in the
C code.  The returned list holds the stderr warnings printed before the
outcome. -/
def ctf_open_trace_metadata_packet_read (hostOrder byteOrder : ByteOrder)
    (tdUuid : Option (List Nat)) (hdr : MetadataPacketHeader) :
    List MetaWarning × Except CtfErr (Option (List Nat)) :=
  let header := readHeaderFields hostOrder byteOrder hdr
  let warns := if header.checksum ≠ 0 then [MetaWarning.checksumNotVerified]
    else []
  if header.compressionScheme ≠ 0 then
    (warns, Except.error CtfErr.unsupportedFraming)
  else if header.encryptionScheme ≠ 0 then
    (warns, Except.error CtfErr.unsupportedFraming)
  else if header.checksumScheme ≠ 0 then
    (warns, Except.error CtfErr.unsupportedFraming)
  else
    let warns := warns ++ check_version header.major header.minor
    match tdUuid with
    | none => (warns, Except.ok (some header.uuid))
    | some u =>
      if header.uuid ≠ u then (warns, Except.error CtfErr.uuidMismatch)
      else (warns, Except.ok (some u))

/-- The per-packet loop of `ctf_open_trace_metadata_stream_read`
(src/formats/ctf/ctf.c:737-775) restricted to the header validation: packets
are processed in order until the first failing one. -/
def metadataPacketsRead (hostOrder byteOrder : ByteOrder) :
    Option (List Nat) → List MetadataPacketHeader →
      Except CtfErr (Option (List Nat))
  | tdUuid, [] => Except.ok tdUuid
  | tdUuid, hdr :: rest =>
    match ctf_open_trace_metadata_packet_read hostOrder byteOrder tdUuid
        hdr with
    | (_, Except.error e) => Except.error e
    | (_, Except.ok tdUuid') =>
      metadataPacketsRead hostOrder byteOrder tdUuid' rest

/-- `bswap32` on a value presented byte by byte reverses the bytes. -/
lemma bswap32_bytes (b3 b2 b1 b0 : Nat) (h3 : b3 < 256) (h2 : b2 < 256)
    (h1 : b1 < 256) (h0 : b0 < 256) :
    bswap32 (b3 * 2 ^ 24 + b2 * 2 ^ 16 + b1 * 2 ^ 8 + b0) =
      b0 * 2 ^ 24 + b1 * 2 ^ 16 + b2 * 2 ^ 8 + b3 := by
  unfold bswap32
  omega

/-- `bswap32` is an involution on 32-bit values. -/
lemma bswap32_involutive (v : Nat) (hv : v < 2 ^ 32) :
    bswap32 (bswap32 v) = v := by
  have h0 : v % 256 < 256 := Nat.mod_lt _ (by norm_num)
  have h1 : v / 2 ^ 8 % 256 < 256 := Nat.mod_lt _ (by norm_num)
  have h2 : v / 2 ^ 16 % 256 < 256 := Nat.mod_lt _ (by norm_num)
  have h3 : v / 2 ^ 24 % 256 < 256 := Nat.mod_lt _ (by norm_num)
  have hdecomp : v = v / 2 ^ 24 % 256 * 2 ^ 24 + v / 2 ^ 16 % 256 * 2 ^ 16 +
      v / 2 ^ 8 % 256 * 2 ^ 8 + v % 256 := by omega
  calc bswap32 (bswap32 v)
      = bswap32 (bswap32 (v / 2 ^ 24 % 256 * 2 ^ 24 +
          v / 2 ^ 16 % 256 * 2 ^ 16 + v / 2 ^ 8 % 256 * 2 ^ 8 + v % 256)) :=
        by rw [← hdecomp]
    _ = bswap32 (v % 256 * 2 ^ 24 + v / 2 ^ 8 % 256 * 2 ^ 16 +
          v / 2 ^ 16 % 256 * 2 ^ 8 + v / 2 ^ 24 % 256) := by
        rw [bswap32_bytes _ _ _ _ h3 h2 h1 h0]
    _ = v / 2 ^ 24 % 256 * 2 ^ 24 + v / 2 ^ 16 % 256 * 2 ^ 16 +
          v / 2 ^ 8 % 256 * 2 ^ 8 + v % 256 :=
        bswap32_bytes _ _ _ _ h0 h1 h2 h3
    _ = v := hdecomp.symm

/-- With the three framing schemes zero, the first metadata packet adopts
its (byte-order corrected) uuid as the trace UUID. -/
lemma metadata_read_ok_first (hostOrder byteOrder : ByteOrder)
    (hdr : MetadataPacketHeader)
    (h1 : (readHeaderFields hostOrder byteOrder hdr).compressionScheme = 0)
    (h2 : (readHeaderFields hostOrder byteOrder hdr).encryptionScheme = 0)
    (h3 : (readHeaderFields hostOrder byteOrder hdr).checksumScheme = 0) :
    (ctf_open_trace_metadata_packet_read hostOrder byteOrder none hdr).2 =
      Except.ok (some (readHeaderFields hostOrder byteOrder hdr).uuid) := by
  unfold ctf_open_trace_metadata_packet_read
  dsimp only
  rw [if_neg (by simp [h1]), if_neg (by simp [h2]), if_neg (by simp [h3])]

/-- With the three framing schemes zero, a metadata packet whose
(byte-order corrected) uuid differs from the adopted trace UUID fails with
the UUID-mismatch error. -/
lemma metadata_read_mismatch (hostOrder byteOrder : ByteOrder)
    (u : List Nat) (hdr : MetadataPacketHeader)
    (h1 : (readHeaderFields hostOrder byteOrder hdr).compressionScheme = 0)
    (h2 : (readHeaderFields hostOrder byteOrder hdr).encryptionScheme = 0)
    (h3 : (readHeaderFields hostOrder byteOrder hdr).checksumScheme = 0)
    (hne : (readHeaderFields hostOrder byteOrder hdr).uuid ≠ u) :
    (ctf_open_trace_metadata_packet_read hostOrder byteOrder (some u)
      hdr).2 = Except.error CtfErr.uuidMismatch := by
  unfold ctf_open_trace_metadata_packet_read
  dsimp only
  rw [if_neg (by simp [h1]), if_neg (by simp [h2]), if_neg (by simp [h3])]
  simp [hne]

/-- C6: for every binary metadata packet, after the conditional byte swap a
non-zero `compression_scheme`, `encryption_scheme` or `checksum_scheme`
fails the metadata read with `UnsupportedFraming` (fatal to the open),
whereas a non-zero `checksum` field only prints a stderr warning: with the
three schemes zero the read never fails with `UnsupportedFraming`, and on
the first packet it succeeds outright. -/
theorem C6_metadata_scheme_refusal (hostOrder byteOrder : ByteOrder)
    (tdUuid : Option (List Nat)) (hdr : MetadataPacketHeader) :
    ((readHeaderFields hostOrder byteOrder hdr).compressionScheme ≠ 0 ∨
      (readHeaderFields hostOrder byteOrder hdr).encryptionScheme ≠ 0 ∨
      (readHeaderFields hostOrder byteOrder hdr).checksumScheme ≠ 0 →
      (ctf_open_trace_metadata_packet_read hostOrder byteOrder tdUuid
        hdr).2 = Except.error CtfErr.unsupportedFraming) ∧
    ((readHeaderFields hostOrder byteOrder hdr).checksum ≠ 0 →
      MetaWarning.checksumNotVerified ∈
        (ctf_open_trace_metadata_packet_read hostOrder byteOrder tdUuid
          hdr).1) ∧
    ((readHeaderFields hostOrder byteOrder hdr).compressionScheme = 0 →
      (readHeaderFields hostOrder byteOrder hdr).encryptionScheme = 0 →
      (readHeaderFields hostOrder byteOrder hdr).checksumScheme = 0 →
      (ctf_open_trace_metadata_packet_read hostOrder byteOrder tdUuid
        hdr).2 ≠ Except.error CtfErr.unsupportedFraming) ∧
    ((readHeaderFields hostOrder byteOrder hdr).compressionScheme = 0 →
      (readHeaderFields hostOrder byteOrder hdr).encryptionScheme = 0 →
      (readHeaderFields hostOrder byteOrder hdr).checksumScheme = 0 →
      tdUuid = none →
      (ctf_open_trace_metadata_packet_read hostOrder byteOrder tdUuid
        hdr).2 =
        Except.ok (some (readHeaderFields hostOrder byteOrder hdr).uuid)) := by
  refine ⟨fun hviol => ?_, fun hck => ?_, fun h1 h2 h3 => ?_,
    fun h1 h2 h3 h4 => ?_⟩
  · unfold ctf_open_trace_metadata_packet_read
    dsimp only
    split_ifs <;> simp_all
  · unfold ctf_open_trace_metadata_packet_read
    dsimp only
    rw [if_pos hck]
    split_ifs <;> cases tdUuid <;>
      simp_all [List.mem_append] <;> split_ifs <;> simp
  · unfold ctf_open_trace_metadata_packet_read
    dsimp only
    rw [if_neg (by simp [h1]), if_neg (by simp [h2]), if_neg (by simp [h3])]
    cases tdUuid <;> simp <;> split_ifs <;> simp
  · subst h4
    exact metadata_read_ok_first hostOrder byteOrder hdr h1 h2 h3

/-- Witness for C6 at a concrete compressed metadata packet
(compression scheme 1, same byte orders). -/
theorem C6_metadata_scheme_refusal_witness :
    (ctf_open_trace_metadata_packet_read ByteOrder.le ByteOrder.le none
        ⟨0x75D11D57, [], 0, 4096, 4096, 1, 0, 0, 1, 8⟩).2 =
      Except.error CtfErr.unsupportedFraming :=
  (C6_metadata_scheme_refusal ByteOrder.le ByteOrder.le none
    ⟨0x75D11D57, [], 0, 4096, 4096, 1, 0, 0, 1, 8⟩).1 (by decide)

/-- C5: every packet's UUID must equal the trace UUID: the first binary
metadata packet's (byte-order corrected) uuid is adopted as the trace UUID;
a subsequent metadata packet whose uuid differs fails the open with
`UUIDMismatch`; and during packet indexing a stream packet header that
declares a uuid differing from the trace UUID (its `magic`, when declared,
being the valid one, so that the earlier check passes) fails the open with
`UUIDMismatch`. -/
theorem C5_uuid_validation :
    (∀ (hostOrder byteOrder : ByteOrder) (hdr : MetadataPacketHeader)
      (rest : List MetadataPacketHeader),
      (readHeaderFields hostOrder byteOrder hdr).compressionScheme = 0 →
      (readHeaderFields hostOrder byteOrder hdr).encryptionScheme = 0 →
      (readHeaderFields hostOrder byteOrder hdr).checksumScheme = 0 →
      metadataPacketsRead hostOrder byteOrder none (hdr :: rest) =
        metadataPacketsRead hostOrder byteOrder
          (some (readHeaderFields hostOrder byteOrder hdr).uuid) rest) ∧
    (∀ (hostOrder byteOrder : ByteOrder) (u : List Nat)
      (hdr : MetadataPacketHeader) (rest : List MetadataPacketHeader),
      (readHeaderFields hostOrder byteOrder hdr).compressionScheme = 0 →
      (readHeaderFields hostOrder byteOrder hdr).encryptionScheme = 0 →
      (readHeaderFields hostOrder byteOrder hdr).checksumScheme = 0 →
      (readHeaderFields hostOrder byteOrder hdr).uuid ≠ u →
      metadataPacketsRead hostOrder byteOrder (some u) (hdr :: rest) =
        Except.error CtfErr.uuidMismatch) ∧
    (∀ (tdUuid : List Nat) (streams : List Bool) (fileSize : Nat)
      (first : Bool) (recordedStreamId mmapOffset : Nat) (pkt : PacketView)
      (h : PacketHeaderView) (u : List Nat),
      pkt.header = some h →
      (h.magic = none ∨ h.magic = some ctfMagic) →
      h.uuid = some u → u ≠ tdUuid →
      indexOnePacket tdUuid streams fileSize first recordedStreamId
        mmapOffset pkt = Except.error CtfErr.uuidMismatch) := by
  refine ⟨?_, ?_, ?_⟩
  · intro hostOrder byteOrder hdr rest h1 h2 h3
    rcases hres : ctf_open_trace_metadata_packet_read hostOrder byteOrder
      none hdr with ⟨w, r⟩
    have hr : r = Except.ok
        (some (readHeaderFields hostOrder byteOrder hdr).uuid) := by
      have := metadata_read_ok_first hostOrder byteOrder hdr h1 h2 h3
      rw [hres] at this
      exact this
    subst hr
    conv_lhs => rw [metadataPacketsRead, hres]
  · intro hostOrder byteOrder u hdr rest h1 h2 h3 hne
    rcases hres : ctf_open_trace_metadata_packet_read hostOrder byteOrder
      (some u) hdr with ⟨w, r⟩
    have hr : r = Except.error CtfErr.uuidMismatch := by
      have := metadata_read_mismatch hostOrder byteOrder u hdr h1 h2 h3 hne
      rw [hres] at this
      exact this
    subst hr
    conv_lhs => rw [metadataPacketsRead, hres]
  · intro tdUuid streams fileSize first recordedStreamId mmapOffset pkt h u
      hph hmagic huuid hne
    unfold indexOnePacket
    rw [hph]
    have hhdr : indexPacketHeader tdUuid h =
        Except.error CtfErr.uuidMismatch := by
      unfold indexPacketHeader indexPacketHeaderUuid
      rcases hmagic with hm | hm <;> rw [hm] <;> simp [huuid, hne]
    show (match indexPacketHeader tdUuid h with
      | Except.error e => Except.error e
      | Except.ok streamId =>
        indexPacketChecks streams fileSize first recordedStreamId mmapOffset
          pkt streamId) = Except.error CtfErr.uuidMismatch
    rw [hhdr]

/-- Witness for C5: a stream packet header with valid magic but a foreign
uuid fails indexing with the UUID-mismatch error. -/
theorem C5_uuid_validation_witness :
    indexOnePacket [1, 2] [true] 4096 true 0 0
        ⟨some ⟨some 0xC1FC1FC1, some [9, 9], none⟩, none, 64⟩ =
      Except.error CtfErr.uuidMismatch :=
  C5_uuid_validation.2.2 [1, 2] [true] 4096 true 0 0
    ⟨some ⟨some 0xC1FC1FC1, some [9, 9], none⟩, none, 64⟩
    ⟨some 0xC1FC1FC1, some [9, 9], none⟩ [9, 9] rfl (by decide) rfl
    (by decide)

/-- C7: the metadata framing decision reads the first 4 bytes: on
`TSDL_MAGIC` the trace byte order is the host order, on the byte-swapped
magic it is the opposite, and any other value falls through to text mode
with host byte order; and a header whose 32-bit numeric fields were written
in the detected byte order decodes, after the reader's conditional swap, to
exactly the values written. -/
theorem C7_metadata_byte_order :
    (∀ hostOrder : ByteOrder,
      metadataFraming hostOrder (some tsdlMagic) = (true, hostOrder)) ∧
    (∀ hostOrder : ByteOrder,
      metadataFraming hostOrder (some (bswap32 tsdlMagic)) =
        (true, hostOrder.swap)) ∧
    (∀ (hostOrder : ByteOrder) (m : Nat), m ≠ tsdlMagic →
      m ≠ bswap32 tsdlMagic →
      metadataFraming hostOrder (some m) = (false, hostOrder)) ∧
    (∀ (hostOrder writeOrder : ByteOrder) (hdr : MetadataPacketHeader),
      hdr.magic < 2 ^ 32 → hdr.checksum < 2 ^ 32 →
      hdr.contentSize < 2 ^ 32 → hdr.packetSize < 2 ^ 32 →
      readHeaderFields hostOrder writeOrder
        (if writeOrder = hostOrder then hdr else swapHeaderFields hdr) =
        hdr) := by
  refine ⟨?_, ?_, ?_, ?_⟩
  · intro hostOrder
    simp [metadataFraming, packet_metadata]
  · intro hostOrder
    cases hostOrder <;> decide
  · intro hostOrder m h1 h2
    simp [metadataFraming, packet_metadata, h1, h2]
  · intro hostOrder writeOrder hdr b1 b2 b3 b4
    by_cases hw : writeOrder = hostOrder
    · rw [if_pos hw]
      unfold readHeaderFields
      rw [if_neg (by simp [hw])]
    · rw [if_neg hw]
      unfold readHeaderFields
      rw [if_pos hw]
      show swapHeaderFields (swapHeaderFields hdr) = hdr
      cases hdr
      simp_all [swapHeaderFields, bswap32_involutive]

/-- Witness for C7 at a concrete cross-endian header. -/
theorem C7_metadata_byte_order_witness :
    readHeaderFields ByteOrder.le ByteOrder.be
        (if ByteOrder.be = ByteOrder.le then
          (⟨0x75D11D57, [], 0, 4096, 8192, 0, 0, 0, 1, 8⟩ :
            MetadataPacketHeader)
         else swapHeaderFields ⟨0x75D11D57, [], 0, 4096, 8192, 0, 0, 0, 1, 8⟩) =
      ⟨0x75D11D57, [], 0, 4096, 8192, 0, 0, 0, 1, 8⟩ :=
  C7_metadata_byte_order.2.2.2 ByteOrder.le ByteOrder.be
    ⟨0x75D11D57, [], 0, 4096, 8192, 0, 0, 0, 1, 8⟩ (by decide) (by decide)
    (by decide) (by decide)

/-- The lookups `ctf_read_event` performs inside the variant field `v` of a
decoded event header (src/formats/ctf/ctf.c:263-285): an integer `id` and
an integer `timestamp`; `none` when the lookup finds nothing. -/
structure VariantView where
  intId : Option Nat
  intTimestamp : Option Nat
deriving DecidableEq

/-- The named lookups `ctf_read_event` performs on a decoded
`stream.event.header` (src/formats/ctf/ctf.c:250-286): a top-level integer
field `id`, a top-level enum field `id` (its integer value), and a variant
field `v`; `none` when the lookup finds nothing. -/
structure EventHeaderView where
  intId : Option Nat
  enumId : Option Nat
  v : Option VariantView
deriving DecidableEq

/-- The event-id resolution of `ctf_read_event`
(src/formats/ctf/ctf.c:220-270), starting from the C initialization
`id = 0`: the top-level integer `id` if present, else the top-level enum
`id`; then, whenever a variant `v` holding an integer `id` is present, that
value is assigned over whatever was found before. -/
def resolveEventId (h : EventHeaderView) : Nat :=
  let id0 : Nat := 0
  let id1 := match h.intId with
    | some value => value
    | none =>
      match h.enumId with
      | some value => value
      | none => id0
  match h.v with
  | some vr =>
    match vr.intId with
    | some value => value
    | none => id1
  | none => id1

/-- Refutes C8 as stated: the variant lookup is not guarded by the absence
of a top-level `id`, so with a top-level integer `id = 1` and a variant `v`
whose integer `id = 2`, the resolved event id is 2 — the variant value does
override the top-level field. -/
theorem C8_counterexample_variant_wins :
    resolveEventId ⟨some 1, none, some ⟨some 2, none⟩⟩ = 2 ∧
    ¬ resolveEventId ⟨some 1, none, some ⟨some 2, none⟩⟩ = 1 := by decide

/-- C8 (amended): the event id is resolved as the top-level integer `id` if
present, else the top-level enum `id`, else 0 — but when a variant `v` with
an integer `id` is present, that value is taken, overriding any top-level
`id`. -/
theorem C8_event_id_resolution :
    (∀ (h : EventHeaderView) (vr : VariantView) (value : Nat),
      h.v = some vr → vr.intId = some value → resolveEventId h = value) ∧
    (∀ (h : EventHeaderView) (value : Nat),
      h.v.bind VariantView.intId = none → h.intId = some value →
      resolveEventId h = value) ∧
    (∀ (h : EventHeaderView) (value : Nat),
      h.v.bind VariantView.intId = none → h.intId = none →
      h.enumId = some value → resolveEventId h = value) ∧
    (∀ h : EventHeaderView,
      h.v.bind VariantView.intId = none → h.intId = none →
      h.enumId = none → resolveEventId h = 0) := by
  refine ⟨?_, ?_, ?_, ?_⟩
  · intro h vr value hv hid
    simp [resolveEventId, hv, hid]
  · intro h value hnov hid
    cases hv : h.v with
    | none => simp [resolveEventId, hv, hid]
    | some vr =>
      rw [hv] at hnov
      simp at hnov
      simp [resolveEventId, hv, hid, hnov]
  · intro h value hnov hid henum
    cases hv : h.v with
    | none => simp [resolveEventId, hv, hid, henum]
    | some vr =>
      rw [hv] at hnov
      simp at hnov
      simp [resolveEventId, hv, hid, henum, hnov]
  · intro h hnov hid henum
    cases hv : h.v with
    | none => simp [resolveEventId, hv, hid, henum]
    | some vr =>
      rw [hv] at hnov
      simp at hnov
      simp [resolveEventId, hv, hid, henum, hnov]

/-- Witness for C8's amended resolution at concrete headers. -/
theorem C8_event_id_resolution_witness :
    resolveEventId ⟨some 1, none, some ⟨some 2, none⟩⟩ = 2 :=
  C8_event_id_resolution.1 ⟨some 1, none, some ⟨some 2, none⟩⟩
    ⟨some 2, none⟩ 2 rfl rfl

end Babeltrace
